import Mathlib

/-!
# Verification of a token-bucket rate limiter

A shallow embedding of `src/ratelimit/src/lib.rs`: a lazily-refilled token
bucket.  Shared atomic state is modelled by explicit state passing; the
compare-and-swap retry loops of the source collapse to straight-line code in
this sequential model (a CAS with no interference succeeds on its first
attempt).  `u64` arithmetic is modelled on `Nat` with explicit reduction
modulo `2 ^ 64` at every operation the release build wraps; `u64` division
by zero, which panics in Rust, is modelled by an explicit `panicked`
outcome.  Time is a nanosecond count (`clocksource::precise::Instant` and
`Duration` are both `u64` nanosecond values).
-/

namespace Ratelimit

/-- Modulus of `u64` arithmetic. -/
def U64M : Nat := 2 ^ 64

/-- Modulus of `u32` arithmetic, used for the `as u32` casts in `try_wait_n`. -/
def U32M : Nat := 2 ^ 32

/-- `core::time::Duration::MAX` in nanoseconds (`u64::MAX` seconds plus
`999_999_999` nanoseconds): `Duration * u32` panics exactly when the product
in nanoseconds exceeds this bound. -/
def DURMAX : Nat := 18446744073709551615 * 1000000000 + 999999999

/-- Wrapping `u64` addition (`fetch_add`, release-mode `+`). -/
def wadd (a b : Nat) : Nat := (a + b) % U64M

/-- Wrapping `u64` subtraction (release-mode `-`, `wrapping_sub`); faithful for
arguments below `2 ^ 64`. -/
def wsub (a b : Nat) : Nat := (a + U64M - b) % U64M

/-- Wrapping `u64` multiplication (release-mode `*`). -/
def wmul (a b : Nat) : Nat := (a * b) % U64M

/-- The error enum of the crate. -/
inductive Error
  | AvailableTokensTooHigh
  | MaxTokensTooLow
  | RefillAmountTooHigh
  | RefillIntervalTooLong
deriving DecidableEq

/-- The `Parameters` block kept under the read-write lock: capacity,
refill amount, and refill interval (in nanoseconds). -/
structure Parameters where
  capacity : Nat
  refill_amount : Nat
  refill_interval : Nat
deriving DecidableEq

/-- The `Ratelimiter` state: available tokens, dropped tokens, parameters and
the absolute time (nanoseconds) of the next refill. -/
structure Ratelimiter where
  available : Nat
  dropped : Nat
  parameters : Parameters
  refill_at : Nat
deriving DecidableEq

/-- Outcome of `Ratelimiter::refill`: `Err(remaining)` when the refill is not
yet due, `Ok(())` once the clock and balance were advanced, or a division
panic (refill interval of zero). -/
inductive RefillOutcome
  | notYet (remaining : Nat)
  | refilled
  | panicked
deriving DecidableEq

/-- Outcome of `Ratelimiter::try_wait_n`: `Ok(())`, `Err(hint)` with the wait
hint in nanoseconds, a division panic (refill amount of zero), or fuel
exhaustion of the modelled outer loop (unreachable sequentially once the
refill interval is positive). -/
inductive WaitOutcome
  | acquired
  | failed (hint : Nat)
  | panicked
  | spun
deriving DecidableEq

/-- `Ratelimiter::refill(time)`.  The CAS on `refill_at` succeeds at once in
the sequential model, so the loop is straight-line: if `time` is before
`refill_at` the call returns the remaining duration without mutating
anything; otherwise it advances `refill_at` by the elapsed whole intervals
(plus the currently due one) and credits `intervals * refill_amount` tokens,
capped at `capacity`, crediting the overflow to `dropped`. -/
def refill (r : Ratelimiter) (time : Nat) : Ratelimiter × RefillOutcome :=
  if time < r.refill_at then (r, .notYet (r.refill_at - time))
  else if r.parameters.refill_interval = 0 then (r, .panicked)
  else
    let intervals := ((time - r.refill_at) / r.parameters.refill_interval + 1) % U64M
    let next_refill := wadd r.refill_at (wmul intervals r.parameters.refill_interval)
    let amount := wmul intervals r.parameters.refill_amount
    let r1 : Ratelimiter := { r with refill_at := next_refill }
    if r1.parameters.capacity ≤ wadd r1.available amount then
      ({ r1 with
          available := wadd r1.available (wsub r1.parameters.capacity r1.available),
          dropped := wadd r1.dropped (wsub amount (wsub r1.parameters.capacity r1.available)) },
        .refilled)
    else
      ({ r1 with available := wadd r1.available amount }, .refilled)

/-- The inner token-acquisition step of `try_wait_n`, reached with a nonzero
`available`: `available.overflowing_sub(n)` either commits the subtraction by
CAS (no interference, so it succeeds) or underflows, in which case
`short = u64::MAX - new` and the hint is
`refill_interval * ((short / refill_amount) as u32)` — a
`core::time::Duration * u32` multiplication, which panics when the product
exceeds `Duration::MAX`. -/
def acquire_step (r : Ratelimiter) (n : Nat) : Ratelimiter × WaitOutcome :=
  if n ≤ r.available then ({ r with available := r.available - n }, .acquired)
  else
    if r.parameters.refill_amount = 0 then (r, .panicked)
    else
      let q := (U64M - 1 - wsub r.available n) / r.parameters.refill_amount % U32M
      if DURMAX < r.parameters.refill_interval * q then (r, .panicked)
      else (r, .failed (r.parameters.refill_interval * q))

/-- `Ratelimiter::try_wait_n(n)` at a frozen instant `now`, with explicit fuel
for the outer loop (the outer loop repeats only when a successful refill was
raced away, which in the sequential model needs a zero refill amount).  When
`available` is zero after the refill: a successful refill retries the outer
loop, a not-yet-due refill returns `Err(remaining * ((n / refill_amount) as u32))`,
again a `Duration * u32` multiplication that panics past `Duration::MAX`. -/
def try_wait_n : Nat → Ratelimiter → Nat → Nat → Ratelimiter × WaitOutcome
  | 0, r, _, _ => (r, .spun)
  | fuel + 1, r, n, now =>
    match refill r now with
    | (r1, .panicked) => (r1, .panicked)
    | (r1, .refilled) =>
      if r1.available = 0 then try_wait_n fuel r1 n now
      else acquire_step r1 n
    | (r1, .notYet d) =>
      if r1.available = 0 then
        if r1.parameters.refill_amount = 0 then (r1, .panicked)
        else
          let q := n / r1.parameters.refill_amount % U32M
          if DURMAX < d * q then (r1, .panicked)
          else (r1, .failed (d * q))
      else acquire_step r1 n

/-- `Ratelimiter::try_wait()` is `try_wait_n(1)`. -/
def try_wait (fuel : Nat) (r : Ratelimiter) (now : Nat) : Ratelimiter × WaitOutcome :=
  try_wait_n fuel r 1 now

/-- `Ratelimiter::return_n(n)`: raise `available` by `n` (wrapping, as the
closure's `a + n` does in release mode), clamped to `max_tokens()`. -/
def return_n (r : Ratelimiter) (n : Nat) : Ratelimiter :=
  { r with available := min (wadd r.available n) r.parameters.capacity }

/-- `Ratelimiter::set_max_tokens(amount)`: reject `amount < refill_amount`,
otherwise commit the new capacity and raise `available` to `amount` when it
is below it (the CAS loop, sequentially). -/
def set_max_tokens (r : Ratelimiter) (amount : Nat) : Ratelimiter × Option Error :=
  if amount < r.parameters.refill_amount then (r, some .MaxTokensTooLow)
  else
    let r1 : Ratelimiter := { r with parameters := { r.parameters with capacity := amount } }
    if r1.available < amount then ({ r1 with available := amount }, none)
    else (r1, none)

/-- `Ratelimiter::set_available(amount)`: reject amounts above the capacity,
otherwise store the amount. -/
def set_available (r : Ratelimiter) (amount : Nat) : Ratelimiter × Option Error :=
  if r.parameters.capacity < amount then (r, some .AvailableTokensTooHigh)
  else ({ r with available := amount }, none)

/-- `Ratelimiter::set_refill_amount(amount)`: reject amounts above the
capacity, otherwise commit. -/
def set_refill_amount (r : Ratelimiter) (amount : Nat) : Ratelimiter × Option Error :=
  if r.parameters.capacity < amount then (r, some .RefillAmountTooHigh)
  else ({ r with parameters := { r.parameters with refill_amount := amount } }, none)

/-- `Ratelimiter::set_refill_interval(duration)`: reject durations whose
nanosecond count exceeds `u64::MAX`, otherwise commit the nanosecond count. -/
def set_refill_interval (r : Ratelimiter) (duration : Nat) : Ratelimiter × Option Error :=
  if U64M - 1 < duration then (r, some .RefillIntervalTooLong)
  else ({ r with parameters := { r.parameters with refill_interval := duration } }, none)

/-- The `Builder`: initial tokens, capacity, refill amount, and refill
interval in nanoseconds (a `core::time::Duration`, so not yet bounded by
`u64`). -/
structure Builder where
  initial_available : Nat
  max_tokens : Nat
  refill_amount : Nat
  refill_interval : Nat
deriving DecidableEq

/-- `Ratelimiter::builder(amount, interval)` / `Builder::new`: zero initial
tokens and a default capacity of one. -/
def builder (amount : Nat) (interval : Nat) : Builder :=
  { initial_available := 0, max_tokens := 1,
    refill_amount := amount, refill_interval := interval }

/-- `Builder::max_tokens`. -/
def Builder.with_max_tokens (b : Builder) (tokens : Nat) : Builder :=
  { b with max_tokens := tokens }

/-- `Builder::initial_available`. -/
def Builder.with_initial_available (b : Builder) (tokens : Nat) : Builder :=
  { b with initial_available := tokens }

/-- `Builder::build()` at instant `now`: `max_tokens < refill_amount` is
rejected first, then an interval whose nanosecond count exceeds `u64::MAX`;
otherwise the limiter starts with `initial_available` tokens (unvalidated),
zero dropped, and `refill_at = now + refill_interval`. -/
def build (b : Builder) (now : Nat) : Except Error Ratelimiter :=
  if b.max_tokens < b.refill_amount then .error .MaxTokensTooLow
  else if U64M - 1 < b.refill_interval then .error .RefillIntervalTooLong
  else .ok
    { available := b.initial_available,
      dropped := 0,
      parameters :=
        { capacity := b.max_tokens,
          refill_amount := b.refill_amount,
          refill_interval := b.refill_interval },
      refill_at := now + b.refill_interval }

/-- The public operations of the limiter, as data, for stating trace
invariants.  `tryWaitN` carries the fuel of the modelled outer loop. -/
inductive Op
  | tryWaitN (fuel n now : Nat)
  | returnN (n : Nat)
  | setAvailable (amount : Nat)
  | setMaxTokens (amount : Nat)
  | setRefillAmount (amount : Nat)
  | setRefillInterval (duration : Nat)
deriving DecidableEq

/-- State transition of one public operation (discarding its result). -/
def step (r : Ratelimiter) : Op → Ratelimiter
  | .tryWaitN fuel n now => (try_wait_n fuel r n now).1
  | .returnN n => return_n r n
  | .setAvailable a => (set_available r a).1
  | .setMaxTokens a => (set_max_tokens r a).1
  | .setRefillAmount a => (set_refill_amount r a).1
  | .setRefillInterval d => (set_refill_interval r d).1

/-- Run a sequence of public operations. -/
def run (r : Ratelimiter) (ops : List Op) : Ratelimiter :=
  ops.foldl step r

/-- The balance invariant: `available` within the (representable) capacity. -/
def Inv (r : Ratelimiter) : Prop :=
  r.available ≤ r.parameters.capacity ∧ r.parameters.capacity < U64M

instance (r : Ratelimiter) : Decidable (Inv r) := by
  unfold Inv; infer_instance

/-- Guard on a single operation: `set_max_tokens` must stay representable and,
when it would commit, must not lower the capacity below the current balance. -/
def opOk (r : Ratelimiter) : Op → Bool
  | .setMaxTokens a =>
    decide (a < U64M) && decide (r.parameters.refill_amount ≤ a → r.available ≤ a)
  | _ => true

/-- Guard on a sequence of operations, each judged at the state it runs in. -/
def opsOk : Ratelimiter → List Op → Bool
  | _, [] => true
  | r, op :: rest => opOk r op && opsOk (step r op) rest

/-! ## Arithmetic helper lemmas -/

lemma U64M_eq : U64M = 18446744073709551616 := by norm_num [U64M]

lemma wadd_eq {a b : Nat} (h : a + b < U64M) : wadd a b = a + b := Nat.mod_eq_of_lt h

lemma wmul_eq {a b : Nat} (h : a * b < U64M) : wmul a b = a * b := Nat.mod_eq_of_lt h

lemma wsub_eq {a b : Nat} (hba : b ≤ a) (ha : a < U64M) : wsub a b = a - b := by
  unfold wsub
  rw [U64M_eq] at ha ⊢
  omega

/-! ## Helper lemmas about `refill` -/

lemma refill_not_due {r : Ratelimiter} {now : Nat} (h : now < r.refill_at) :
    refill r now = (r, .notYet (r.refill_at - now)) := by
  unfold refill
  rw [if_pos h]

lemma refill_div_zero {r : Ratelimiter} {now : Nat} (h1 : r.refill_at ≤ now)
    (h2 : r.parameters.refill_interval = 0) :
    refill r now = (r, .panicked) := by
  unfold refill
  rw [if_neg (not_lt.mpr h1), if_pos h2]

lemma refill_parameters (r : Ratelimiter) (now : Nat) :
    (refill r now).1.parameters = r.parameters := by
  unfold refill
  split
  · rfl
  · split
    · rfl
    · dsimp only
      split <;> rfl

lemma refill_inv {r : Ratelimiter} (now : Nat) (h : Inv r) : Inv (refill r now).1 := by
  obtain ⟨hle, hcap⟩ := h
  unfold refill
  split
  · exact ⟨hle, hcap⟩
  · split
    · exact ⟨hle, hcap⟩
    · dsimp only
      split
      · refine ⟨?_, hcap⟩
        dsimp only
        rw [wsub_eq hle hcap, wadd_eq (by omega)]
        omega
      · rename_i hlt
        exact ⟨le_of_lt (lt_of_not_le hlt), hcap⟩

lemma refill_due_outcome {r : Ratelimiter} {now : Nat} (h1 : r.refill_at ≤ now)
    (h2 : r.parameters.refill_interval ≠ 0) :
    (refill r now).2 = .refilled := by
  unfold refill
  rw [if_neg (not_lt.mpr h1), if_neg h2]
  dsimp only
  split <;> rfl

lemma refill_available_ge {r : Ratelimiter} {now n : Nat} (h : Inv r)
    (hge : n ≤ r.available)
    (hov : r.available + wmul (((now - r.refill_at) / r.parameters.refill_interval + 1) % U64M)
      r.parameters.refill_amount < U64M) :
    n ≤ (refill r now).1.available := by
  obtain ⟨hle, hcap⟩ := h
  unfold refill
  split
  · exact hge
  · split
    · exact hge
    · dsimp only
      split
      · dsimp only
        rw [wsub_eq hle hcap, wadd_eq (by omega)]
        omega
      · dsimp only
        rw [wadd_eq hov]
        omega

lemma acquire_step_inv {r : Ratelimiter} (n : Nat) (h : Inv r) : Inv (acquire_step r n).1 := by
  unfold acquire_step
  split
  · exact ⟨le_trans (Nat.sub_le _ _) h.1, h.2⟩
  · split
    · exact h
    · dsimp only
      split
      · exact h
      · exact h

lemma try_wait_n_inv : ∀ (fuel : Nat) (r : Ratelimiter) (n now : Nat),
    Inv r → Inv (try_wait_n fuel r n now).1 := by
  intro fuel
  induction fuel with
  | zero =>
    intro r n now h
    exact h
  | succ fuel ih =>
    intro r n now h
    have h1 := refill_inv now h
    rcases hm : refill r now with ⟨r1, o⟩
    rw [hm] at h1
    cases o with
    | panicked =>
      simp only [try_wait_n, hm]
      exact h1
    | refilled =>
      simp only [try_wait_n, hm]
      split
      · exact ih r1 n now h1
      · exact acquire_step_inv n h1
    | notYet d =>
      simp only [try_wait_n, hm]
      split
      · split
        · exact h1
        · split
          · exact h1
          · exact h1
      · exact acquire_step_inv n h1

lemma step_inv {r : Ratelimiter} {op : Op} (h : Inv r) (hok : opOk r op = true) :
    Inv (step r op) := by
  cases op with
  | tryWaitN fuel n now => exact try_wait_n_inv fuel r n now h
  | returnN n => exact ⟨min_le_right _ _, h.2⟩
  | setAvailable a =>
    dsimp only [step]
    unfold set_available
    split
    · exact h
    · rename_i hc
      exact ⟨not_lt.mp hc, h.2⟩
  | setMaxTokens a =>
    dsimp only [step]
    unfold set_max_tokens
    simp only [opOk, Bool.and_eq_true, decide_eq_true_eq] at hok
    obtain ⟨ha64, himp⟩ := hok
    split
    · exact h
    · rename_i hge
      have hav : r.available ≤ a := himp (not_lt.mp hge)
      dsimp only
      split
      · exact ⟨le_refl a, ha64⟩
      · exact ⟨hav, ha64⟩
  | setRefillAmount a =>
    dsimp only [step]
    unfold set_refill_amount
    split
    · exact h
    · exact h
  | setRefillInterval d =>
    dsimp only [step]
    unfold set_refill_interval
    split
    · exact h
    · exact h

lemma run_inv : ∀ (ops : List Op) (r : Ratelimiter),
    Inv r → opsOk r ops = true → Inv (run r ops)
  | [], _, h, _ => h
  | op :: rest, r, h, hok => by
    unfold opsOk at hok
    rw [Bool.and_eq_true] at hok
    exact run_inv rest (step r op) (step_inv h hok.1) hok.2

/-! ## Claim theorems -/

/-- C4: when `refill` is invoked at a time strictly before `refill_at`, it
returns the "not yet" result carrying exactly `refill_at - now` and leaves
`available`, `refill_at`, and `dropped` (the whole state) unchanged. -/
theorem refill_not_due_spec (r : Ratelimiter) (now : Nat) (h : now < r.refill_at) :
    refill r now = (r, .notYet (r.refill_at - now)) :=
  refill_not_due h

theorem refill_not_due_spec_witness :
    (0 : Nat) < (⟨5, 7, ⟨10, 2, 100⟩, 1000⟩ : Ratelimiter).refill_at ∧
    refill ⟨5, 7, ⟨10, 2, 100⟩, 1000⟩ 0 = (⟨5, 7, ⟨10, 2, 100⟩, 1000⟩, .notYet 1000) :=
  ⟨by decide, refill_not_due_spec ⟨5, 7, ⟨10, 2, 100⟩, 1000⟩ 0 (by decide)⟩

/-- C9: each configuration setter fails exactly under its documented
condition, leaves the whole state unmodified on error, and on success
commits exactly the given value (and nothing else): `set_refill_interval`
fails with `RefillIntervalTooLong` iff the nanosecond count exceeds
`u64::MAX`, `set_refill_amount` fails with `RefillAmountTooHigh` iff the
amount exceeds the capacity, and `set_available` fails with
`AvailableTokensTooHigh` iff the amount exceeds the capacity. -/
theorem setters_spec (r : Ratelimiter) (d a v : Nat) :
    (((set_refill_interval r d).2 = some Error.RefillIntervalTooLong ↔ U64M - 1 < d) ∧
      (U64M - 1 < d → (set_refill_interval r d).1 = r) ∧
      (d ≤ U64M - 1 → set_refill_interval r d =
        ({ r with parameters := { r.parameters with refill_interval := d } }, none))) ∧
    (((set_refill_amount r a).2 = some Error.RefillAmountTooHigh ↔ r.parameters.capacity < a) ∧
      (r.parameters.capacity < a → (set_refill_amount r a).1 = r) ∧
      (a ≤ r.parameters.capacity → set_refill_amount r a =
        ({ r with parameters := { r.parameters with refill_amount := a } }, none))) ∧
    (((set_available r v).2 = some Error.AvailableTokensTooHigh ↔ r.parameters.capacity < v) ∧
      (r.parameters.capacity < v → (set_available r v).1 = r) ∧
      (v ≤ r.parameters.capacity → set_available r v = ({ r with available := v }, none))) := by
  unfold set_refill_interval set_refill_amount set_available
  refine ⟨⟨?_, ?_, ?_⟩, ⟨?_, ?_, ?_⟩, ⟨?_, ?_, ?_⟩⟩ <;> split <;> simp_all

theorem setters_spec_witness :
    ((77 : Nat) ≤ U64M - 1 ∧ (3 : Nat) ≤ 10 ∧ (9 : Nat) ≤ 10) ∧
    set_refill_interval ⟨0, 0, ⟨10, 2, 100⟩, 0⟩ 77 = (⟨0, 0, ⟨10, 2, 77⟩, 0⟩, none) ∧
    set_refill_amount ⟨0, 0, ⟨10, 2, 100⟩, 0⟩ 3 = (⟨0, 0, ⟨10, 3, 100⟩, 0⟩, none) ∧
    set_available ⟨0, 0, ⟨10, 2, 100⟩, 0⟩ 9 = (⟨9, 0, ⟨10, 2, 100⟩, 0⟩, none) :=
  ⟨⟨by decide, by decide, by decide⟩,
    (setters_spec ⟨0, 0, ⟨10, 2, 100⟩, 0⟩ 77 3 9).1.2.2 (by decide),
    (setters_spec ⟨0, 0, ⟨10, 2, 100⟩, 0⟩ 77 3 9).2.1.2.2 (by decide),
    (setters_spec ⟨0, 0, ⟨10, 2, 100⟩, 0⟩ 77 3 9).2.2.2.2 (by decide)⟩

/-- C5: `set_max_tokens(amount)` fails with `MaxTokensTooLow` exactly when
`amount < refill_amount`, leaving the state (in particular the capacity)
unchanged; otherwise it commits `amount` as the new capacity and raises
`available` to `max (old available) amount`: the raise happens exactly when
`available` was below the new capacity, and `available` is never lowered. -/
theorem set_max_tokens_spec (r : Ratelimiter) (amount : Nat) :
    ((set_max_tokens r amount).2 = some Error.MaxTokensTooLow ↔
      amount < r.parameters.refill_amount) ∧
    (amount < r.parameters.refill_amount → (set_max_tokens r amount).1 = r) ∧
    (r.parameters.refill_amount ≤ amount →
      (set_max_tokens r amount).2 = none ∧
      (set_max_tokens r amount).1.parameters.capacity = amount ∧
      (set_max_tokens r amount).1.available = max r.available amount ∧
      ((set_max_tokens r amount).1.available ≠ r.available ↔ r.available < amount) ∧
      r.available ≤ (set_max_tokens r amount).1.available ∧
      (set_max_tokens r amount).1.parameters.refill_amount = r.parameters.refill_amount ∧
      (set_max_tokens r amount).1.parameters.refill_interval = r.parameters.refill_interval ∧
      (set_max_tokens r amount).1.refill_at = r.refill_at ∧
      (set_max_tokens r amount).1.dropped = r.dropped) := by
  unfold set_max_tokens
  by_cases h : amount < r.parameters.refill_amount
  · rw [if_pos h]
    exact ⟨by simp [h], fun _ => rfl, fun h2 => absurd h (not_lt.mpr h2)⟩
  · rw [if_neg h]
    dsimp only
    by_cases h2 : r.available < amount
    · rw [if_pos h2]
      refine ⟨by simp [h], fun h3 => absurd h3 h, fun _ => ?_⟩
      refine ⟨rfl, rfl, ?_, ?_, ?_, rfl, rfl, rfl, rfl⟩
      · dsimp only
        rw [Nat.max_def]
        split <;> omega
      · dsimp only
        constructor <;> intro <;> omega
      · dsimp only
        omega
    · rw [if_neg h2]
      refine ⟨by simp [h], fun h3 => absurd h3 h, fun _ => ?_⟩
      refine ⟨rfl, rfl, ?_, ?_, ?_, rfl, rfl, rfl, rfl⟩
      · dsimp only
        rw [Nat.max_def]
        split <;> omega
      · dsimp only
        constructor <;> intro <;> omega
      · dsimp only
        exact le_refl _

theorem set_max_tokens_spec_witness :
    (2 : Nat) ≤ 8 ∧
    (set_max_tokens ⟨5, 0, ⟨10, 2, 100⟩, 0⟩ 8).2 = none ∧
    (set_max_tokens ⟨5, 0, ⟨10, 2, 100⟩, 0⟩ 8).1.available = max 5 8 :=
  ⟨by decide, ((set_max_tokens_spec ⟨5, 0, ⟨10, 2, 100⟩, 0⟩ 8).2.2 (by decide)).1,
    ((set_max_tokens_spec ⟨5, 0, ⟨10, 2, 100⟩, 0⟩ 8).2.2 (by decide)).2.2.1⟩

/-- C8 counterexample: the builder checks `max_tokens < refill_amount` first,
so a configuration violating both conditions (capacity 1 below refill amount
2, and an interval of `2^64 + 5` nanoseconds exceeding `u64::MAX`) fails
with `MaxTokensTooLow`, not `RefillIntervalTooLong` — refuting the claim
that a too-long interval fails with `RefillIntervalTooLong` exactly when the
nanosecond count exceeds `u64::MAX`. -/
theorem build_error_priority_counterexample :
    (builder 2 (U64M + 5)).max_tokens < (builder 2 (U64M + 5)).refill_amount ∧
    U64M - 1 < (builder 2 (U64M + 5)).refill_interval ∧
    build (builder 2 (U64M + 5)) 0 = .error .MaxTokensTooLow ∧
    Error.MaxTokensTooLow ≠ Error.RefillIntervalTooLong :=
  ⟨by decide, by decide, rfl, by decide⟩

/-- C8 (amended): `build()` fails with `MaxTokensTooLow` exactly when
`max_tokens < refill_amount`; it fails with `RefillIntervalTooLong` exactly
when `max_tokens ≥ refill_amount` and the interval's nanosecond count
exceeds `u64::MAX`; otherwise it succeeds with `available` equal to
`initial_available` exactly as given (unvalidated against the capacity),
`dropped` zero, and `refill_at = now + refill_interval`. -/
theorem build_spec (b : Builder) (now : Nat) :
    (build b now = .error .MaxTokensTooLow ↔ b.max_tokens < b.refill_amount) ∧
    (build b now = .error .RefillIntervalTooLong ↔
      (b.refill_amount ≤ b.max_tokens ∧ U64M - 1 < b.refill_interval)) ∧
    (b.refill_amount ≤ b.max_tokens → b.refill_interval ≤ U64M - 1 →
      build b now = .ok
        { available := b.initial_available, dropped := 0,
          parameters :=
            { capacity := b.max_tokens, refill_amount := b.refill_amount,
              refill_interval := b.refill_interval },
          refill_at := now + b.refill_interval }) := by
  unfold build
  refine ⟨?_, ?_, ?_⟩ <;> split <;> (try split) <;> simp_all

theorem build_spec_witness :
    ((2 : Nat) ≤ 5 ∧ (50 : Nat) ≤ U64M - 1 ∧
      (((builder 2 50).with_max_tokens 5).with_initial_available 7).initial_available >
        (((builder 2 50).with_max_tokens 5).with_initial_available 7).max_tokens) ∧
    build (((builder 2 50).with_max_tokens 5).with_initial_available 7) 0 =
      .ok ⟨7, 0, ⟨5, 2, 50⟩, 50⟩ :=
  ⟨⟨by decide, by decide, by decide⟩,
    (build_spec (((builder 2 50).with_max_tokens 5).with_initial_available 7) 0).2.2
      (by decide) (by decide)⟩

/-- C10: division by zero is reachable from accepted configurations: the
builder accepts a zero refill amount and a zero refill interval, and
`set_refill_amount(0)` succeeds; with a zero interval `refill` divides the
elapsed time by zero once a refill is due, and with a zero refill amount
both failure paths of `try_wait_n` divide by zero (empty bucket with a
not-yet-due refill, and an underflowing acquisition). -/
theorem division_by_zero_reachable :
    build (builder 0 1000) 0 = .ok ⟨0, 0, ⟨1, 0, 1000⟩, 1000⟩ ∧
    build (builder 1 0) 0 = .ok ⟨0, 0, ⟨1, 1, 0⟩, 0⟩ ∧
    (set_refill_amount ⟨0, 0, ⟨1, 1, 1000⟩, 1000⟩ 0).2 = none ∧
    refill ⟨0, 0, ⟨1, 1, 0⟩, 0⟩ 0 = (⟨0, 0, ⟨1, 1, 0⟩, 0⟩, .panicked) ∧
    (try_wait_n 5 ⟨0, 0, ⟨1, 0, 1000⟩, 1000⟩ 1 0).2 = .panicked ∧
    (try_wait_n 5 ⟨1, 0, ⟨1, 0, 1000⟩, 1000⟩ 2 0).2 = .panicked :=
  ⟨rfl, rfl, rfl, rfl, rfl, rfl⟩

/-- C6 counterexample: a limiter built with refill interval `2^63` ns (below
`u64::MAX`, accepted) and refill amount 1 has an empty bucket and a
not-yet-due refill with remaining duration `2^63` ns at time 0; calling
`try_wait_n(2^31)` makes the hint multiplication
`remaining * ((n / refill_amount) as u32) = 2^63 * 2^31` ns exceed
`Duration::MAX`, so the `Duration * u32` multiplication panics instead of
returning the failure the claim asserts. -/
theorem try_wait_n_empty_hint_counterexample :
    build (builder 1 9223372036854775808) 0 =
      .ok ⟨0, 0, ⟨1, 1, 9223372036854775808⟩, 9223372036854775808⟩ ∧
    (try_wait_n 1 ⟨0, 0, ⟨1, 1, 9223372036854775808⟩, 9223372036854775808⟩ 2147483648 0).2 =
      .panicked ∧
    WaitOutcome.panicked ≠ .failed (9223372036854775808 * (2147483648 / 1)) :=
  ⟨rfl, rfl, by decide⟩

/-- C6 (amended): when `available` is zero and the refill step reported "not
due" with remaining duration `refill_at - now`, `try_wait_n(n)` fails with
hint `(refill_at - now) * (n / refill_amount)` (integer division) — zero
whenever `n < refill_amount` — provided the product does not exceed
`Duration::MAX`; past that bound the `Duration * u32` multiplication
panics. -/
theorem try_wait_n_empty_hint_spec (r : Ratelimiter) (n now fuel : Nat)
    (hnd : now < r.refill_at) (h0 : r.available = 0)
    (hra : 0 < r.parameters.refill_amount)
    (hq : n / r.parameters.refill_amount < U32M)
    (hd : (r.refill_at - now) * (n / r.parameters.refill_amount) ≤ DURMAX) :
    (try_wait_n (fuel + 1) r n now).2 =
      .failed ((r.refill_at - now) * (n / r.parameters.refill_amount)) ∧
    (n < r.parameters.refill_amount → (try_wait_n (fuel + 1) r n now).2 = .failed 0) := by
  have hmain : (try_wait_n (fuel + 1) r n now).2 =
      .failed ((r.refill_at - now) * (n / r.parameters.refill_amount)) := by
    simp only [try_wait_n, refill_not_due hnd]
    rw [if_pos h0, if_neg (by omega), Nat.mod_eq_of_lt hq, if_neg (not_lt.mpr hd)]
  refine ⟨hmain, fun hlt => ?_⟩
  rw [hmain, Nat.div_eq_of_lt hlt, Nat.mul_zero]

theorem try_wait_n_empty_hint_spec_witness :
    ((0 : Nat) < (⟨0, 0, ⟨5, 2, 10⟩, 100⟩ : Ratelimiter).refill_at ∧
      (6 : Nat) / 2 < U32M ∧ (100 : Nat) * (6 / 2) ≤ DURMAX) ∧
    (try_wait_n 1 ⟨0, 0, ⟨5, 2, 10⟩, 100⟩ 6 0).2 = .failed 300 :=
  ⟨⟨by decide, by decide, by decide⟩,
    (try_wait_n_empty_hint_spec ⟨0, 0, ⟨5, 2, 10⟩, 100⟩ 6 0 0 (by decide) (by decide)
      (by decide) (by decide) (by decide)).1⟩

/-- C2 counterexample: with `available = 1`, `n = 2`, `refill_amount = 1`,
`refill_interval = 10` and a not-yet-due refill, the loaded available
satisfies `0 < 1 < 2`, the claimed hint is
`refill_interval * ((n - available) / refill_amount) = 10 * 1 = 10`, but the
code computes `short = u64::MAX - wrapping_sub(available, n) = n - available - 1 = 0`
and returns hint `10 * 0 = 0`. -/
theorem try_wait_n_shortfall_counterexample :
    (try_wait_n 2 ⟨1, 0, ⟨3, 1, 10⟩, 100⟩ 2 0).2 = .failed 0 ∧
    (10 : Nat) * ((2 - 1) / 1) = 10 ∧
    WaitOutcome.failed 0 ≠ WaitOutcome.failed 10 := by decide

/-- C2 (amended): when the available balance loaded after the refill step
satisfies `0 < available < n`, `try_wait_n(n)` fails with hint
`refill_interval * ((n - available - 1) / refill_amount)` — the code derives
the shortfall as `u64::MAX - wrapping_sub(available, n) = n - available - 1`,
one less than the claimed `n - available` — provided the product does not
exceed `Duration::MAX` (past that bound the `Duration * u32` multiplication
panics). -/
theorem try_wait_n_shortfall_spec (r r1 : Ratelimiter) (o : RefillOutcome) (n now fuel : Nat)
    (href : refill r now = (r1, o)) (hnp : o ≠ .panicked)
    (hpos : 0 < r1.available) (hlt : r1.available < n) (hn : n < U64M)
    (hra : 0 < r1.parameters.refill_amount)
    (hq : (n - r1.available - 1) / r1.parameters.refill_amount < U32M)
    (hd : r1.parameters.refill_interval *
      ((n - r1.available - 1) / r1.parameters.refill_amount) ≤ DURMAX) :
    (try_wait_n (fuel + 1) r n now).2 =
      .failed (r1.parameters.refill_interval *
        ((n - r1.available - 1) / r1.parameters.refill_amount)) := by
  have hw : wsub r1.available n = r1.available + U64M - n := by
    unfold wsub
    apply Nat.mod_eq_of_lt
    rw [U64M_eq] at hn ⊢
    omega
  have hshort : U64M - 1 - (r1.available + U64M - n) = n - r1.available - 1 := by
    rw [U64M_eq] at hn ⊢
    omega
  have hstep : (acquire_step r1 n).2 =
      .failed (r1.parameters.refill_interval *
        ((n - r1.available - 1) / r1.parameters.refill_amount)) := by
    unfold acquire_step
    rw [if_neg (by omega), if_neg (by omega)]
    dsimp only
    rw [hw, hshort, Nat.mod_eq_of_lt hq, if_neg (not_lt.mpr hd)]
  cases o with
  | panicked => exact absurd rfl hnp
  | refilled =>
    simp only [try_wait_n, href]
    rw [if_neg (by omega)]
    exact hstep
  | notYet d =>
    simp only [try_wait_n, href]
    rw [if_neg (by omega)]
    exact hstep

theorem try_wait_n_shortfall_spec_witness :
    (refill ⟨1, 0, ⟨3, 2, 10⟩, 100⟩ 0 = (⟨1, 0, ⟨3, 2, 10⟩, 100⟩, .notYet 100) ∧
      (0 : Nat) < 1 ∧ (1 : Nat) < 4 ∧ (4 - 1 - 1) / 2 < U32M ∧
      (10 : Nat) * ((4 - 1 - 1) / 2) ≤ DURMAX) ∧
    (try_wait_n 1 ⟨1, 0, ⟨3, 2, 10⟩, 100⟩ 4 0).2 = .failed 10 :=
  ⟨⟨by decide, by decide, by decide, by decide, by decide⟩,
    try_wait_n_shortfall_spec ⟨1, 0, ⟨3, 2, 10⟩, 100⟩ ⟨1, 0, ⟨3, 2, 10⟩, 100⟩
      (.notYet 100) 4 0 0 (by decide) (by decide) (by decide) (by decide) (by decide)
      (by decide) (by decide) (by decide)⟩

/-- C1: when a refill is due (`refill_at ≤ now`), `refill` computes
`intervals = (now - refill_at) / refill_interval + 1`, advances `refill_at`
by `intervals * refill_interval`, and adds `amount = intervals * refill_amount`
to `available` capped at `capacity`: when `available + amount ≥ capacity` it
adds only `capacity - available` and credits the remainder to `dropped`,
otherwise it adds the full amount; it returns success.  Stated under the
balance invariant and freedom from `u64` overflow. -/
theorem refill_due_spec (r : Ratelimiter) (now : Nat)
    (hdue : r.refill_at ≤ now) (hri : 0 < r.parameters.refill_interval)
    (hinv : r.available ≤ r.parameters.capacity) (hcap : r.parameters.capacity < U64M)
    (hI : (now - r.refill_at) / r.parameters.refill_interval + 1 < U64M)
    (hclock : r.refill_at +
      ((now - r.refill_at) / r.parameters.refill_interval + 1) *
        r.parameters.refill_interval < U64M)
    (hamt : r.available +
      ((now - r.refill_at) / r.parameters.refill_interval + 1) *
        r.parameters.refill_amount < U64M)
    (hdrop : r.dropped +
      ((now - r.refill_at) / r.parameters.refill_interval + 1) *
        r.parameters.refill_amount < U64M) :
    (refill r now).2 = .refilled ∧
    (refill r now).1.refill_at = r.refill_at +
      ((now - r.refill_at) / r.parameters.refill_interval + 1) *
        r.parameters.refill_interval ∧
    (refill r now).1.parameters = r.parameters ∧
    (r.parameters.capacity ≤ r.available +
        ((now - r.refill_at) / r.parameters.refill_interval + 1) *
          r.parameters.refill_amount →
      (refill r now).1.available = r.available + (r.parameters.capacity - r.available) ∧
      (refill r now).1.dropped = r.dropped +
        (((now - r.refill_at) / r.parameters.refill_interval + 1) *
            r.parameters.refill_amount - (r.parameters.capacity - r.available))) ∧
    (r.available + ((now - r.refill_at) / r.parameters.refill_interval + 1) *
          r.parameters.refill_amount < r.parameters.capacity →
      (refill r now).1.available = r.available +
        ((now - r.refill_at) / r.parameters.refill_interval + 1) *
          r.parameters.refill_amount ∧
      (refill r now).1.dropped = r.dropped) := by
  have e1 : ((now - r.refill_at) / r.parameters.refill_interval + 1) % U64M
      = (now - r.refill_at) / r.parameters.refill_interval + 1 := Nat.mod_eq_of_lt hI
  unfold refill
  rw [if_neg (not_lt.mpr hdue), if_neg (by omega : ¬ r.parameters.refill_interval = 0)]
  dsimp only
  rw [e1, wmul_eq (by omega :
      ((now - r.refill_at) / r.parameters.refill_interval + 1) *
        r.parameters.refill_interval < U64M),
    wadd_eq hclock,
    wmul_eq (by omega :
      ((now - r.refill_at) / r.parameters.refill_interval + 1) *
        r.parameters.refill_amount < U64M),
    wadd_eq hamt]
  by_cases hc : r.parameters.capacity ≤ r.available +
      ((now - r.refill_at) / r.parameters.refill_interval + 1) * r.parameters.refill_amount
  · rw [if_pos hc]
    refine ⟨rfl, rfl, rfl, fun _ => ⟨?_, ?_⟩, fun h => absurd hc (by omega)⟩
    · dsimp only
      rw [wsub_eq hinv hcap, wadd_eq (by omega)]
    · dsimp only
      rw [wsub_eq hinv hcap,
        wsub_eq (by omega : r.parameters.capacity - r.available ≤
          ((now - r.refill_at) / r.parameters.refill_interval + 1) *
            r.parameters.refill_amount) (by omega),
        wadd_eq (by omega)]
  · rw [if_neg hc]
    exact ⟨rfl, rfl, rfl, fun h => absurd h hc, fun _ => ⟨rfl, rfl⟩⟩

theorem refill_due_spec_witness :
    ((⟨2, 0, ⟨10, 3, 100⟩, 50⟩ : Ratelimiter).refill_at ≤ 260 ∧
      (2 : Nat) ≤ 10 ∧ (260 - 50) / 100 + 1 < U64M) ∧
    (refill ⟨2, 0, ⟨10, 3, 100⟩, 50⟩ 260).2 = .refilled :=
  ⟨⟨by decide, by decide, by decide⟩,
    (refill_due_spec ⟨2, 0, ⟨10, 3, 100⟩, 50⟩ 260 (by decide) (by decide) (by decide)
      (by decide) (by decide) (by decide) (by decide) (by decide)).1⟩

/-- C7: `return_n(n)` sets the balance to `min (available + n) capacity` and
changes nothing else; and with `0 < n ≤ capacity` (and a positive refill
interval, no `u64` overflow), an immediate `try_wait_n(n)` afterwards
succeeds. -/
theorem return_n_spec (r : Ratelimiter) (n now fuel : Nat)
    (hnw : r.available + n < U64M) :
    return_n r n = { r with available := min (r.available + n) r.parameters.capacity } ∧
    (0 < n → n ≤ r.parameters.capacity → r.parameters.capacity < U64M →
      0 < r.parameters.refill_interval →
      min (r.available + n) r.parameters.capacity +
        wmul (((now - r.refill_at) / r.parameters.refill_interval + 1) % U64M)
          r.parameters.refill_amount < U64M →
      (try_wait_n (fuel + 1) (return_n r n) n now).2 = .acquired) := by
  have hret : return_n r n =
      { r with available := min (r.available + n) r.parameters.capacity } := by
    unfold return_n
    rw [wadd_eq hnw]
  refine ⟨hret, fun hn hncap hcap hri hov => ?_⟩
  have ha : (return_n r n).available = min (r.available + n) r.parameters.capacity := by
    rw [hret]
  have hp : (return_n r n).parameters = r.parameters := rfl
  have hat : (return_n r n).refill_at = r.refill_at := rfl
  rcases lt_or_ge now r.refill_at with hlt | hge
  · have hnd : refill (return_n r n) now =
        (return_n r n, .notYet ((return_n r n).refill_at - now)) :=
      refill_not_due (by rw [hat]; exact hlt)
    simp only [try_wait_n, hnd]
    rw [if_neg (by rw [ha]; omega)]
    unfold acquire_step
    rw [if_pos (by rw [ha]; omega)]
  · rcases hm : refill (return_n r n) now with ⟨r1, o⟩
    have ho : o = .refilled := by
      have h' := refill_due_outcome
        (show (return_n r n).refill_at ≤ now by rw [hat]; exact hge)
        (show (return_n r n).parameters.refill_interval ≠ 0 by rw [hp]; omega)
      rw [hm] at h'
      exact h'
    subst ho
    have hge1 : n ≤ r1.available := by
      have h2 := refill_available_ge (n := n)
        (show Inv (return_n r n) from
          ⟨by rw [ha, hp]; exact min_le_right _ _, by rw [hp]; exact hcap⟩)
        (by rw [ha]; omega)
        (show (return_n r n).available +
            wmul (((now - (return_n r n).refill_at) /
                (return_n r n).parameters.refill_interval + 1) % U64M)
              (return_n r n).parameters.refill_amount < U64M by
          rw [ha, hp, hat]; exact hov)
      rw [hm] at h2
      exact h2
    simp only [try_wait_n, hm]
    rw [if_neg (by omega)]
    unfold acquire_step
    rw [if_pos hge1]

theorem return_n_spec_witness :
    ((⟨0, 0, ⟨3, 1, 10⟩, 100⟩ : Ratelimiter).available + 3 < U64M ∧ (0 : Nat) < 3 ∧
      (3 : Nat) ≤ 3) ∧
    return_n ⟨0, 0, ⟨3, 1, 10⟩, 100⟩ 3 = ⟨3, 0, ⟨3, 1, 10⟩, 100⟩ ∧
    (try_wait_n 1 (return_n ⟨0, 0, ⟨3, 1, 10⟩, 100⟩ 3) 3 0).2 = .acquired :=
  ⟨⟨by decide, by decide, by decide⟩,
    (return_n_spec ⟨0, 0, ⟨3, 1, 10⟩, 100⟩ 3 0 0 (by decide)).1,
    (return_n_spec ⟨0, 0, ⟨3, 1, 10⟩, 100⟩ 3 0 0 (by decide)).2 (by decide) (by decide)
      (by decide) (by decide) (by decide)⟩

/-- C3 counterexample: a validly built limiter (initial 10 ≤ capacity 10)
after the single operation `set_max_tokens(5)` — a capacity decrease below
the current balance — reports `available = 10 > max_tokens = 5`, refuting
the claim that `available()` never exceeds `max_tokens()` after any
operation, including capacity decreases. -/
theorem available_bound_counterexample :
    build (((builder 1 100).with_max_tokens 10).with_initial_available 10) 0 =
      .ok ⟨10, 0, ⟨10, 1, 100⟩, 100⟩ ∧
    (((builder 1 100).with_max_tokens 10).with_initial_available 10).initial_available ≤
      (((builder 1 100).with_max_tokens 10).with_initial_available 10).max_tokens ∧
    (run ⟨10, 0, ⟨10, 1, 100⟩, 100⟩ [Op.setMaxTokens 5]).parameters.capacity <
      (run ⟨10, 0, ⟨10, 1, 100⟩, 100⟩ [Op.setMaxTokens 5]).available :=
  ⟨rfl, by decide, by decide⟩

/-- C3 (amended): for a valid configuration (built with
`initial_available ≤ max_tokens`) and any sequence of operations in which
every `set_max_tokens` that would commit keeps the capacity at least the
then-current balance, `available()` stays within `[0, max_tokens()]`; a
`set_max_tokens` that decreases the capacity below the current balance
leaves `available` unchanged above the new capacity (see the
counterexample). -/
theorem available_bound_invariant (b : Builder) (now : Nat) (r : Ratelimiter) (ops : List Op)
    (hb : build b now = .ok r) (hinit : b.initial_available ≤ b.max_tokens)
    (hmt : b.max_tokens < U64M) (hops : opsOk r ops = true) :
    (run r ops).available ≤ (run r ops).parameters.capacity := by
  have hInv : Inv r := by
    unfold build at hb
    split at hb
    · exact absurd hb (by simp)
    · split at hb
      · exact absurd hb (by simp)
      · injection hb with hb
        subst hb
        exact ⟨hinit, hmt⟩
  exact (run_inv ops r hInv hops).1

theorem available_bound_invariant_witness :
    (build (((builder 1 100).with_max_tokens 10).with_initial_available 4) 0 =
        .ok ⟨4, 0, ⟨10, 1, 100⟩, 100⟩ ∧
      (4 : Nat) ≤ 10 ∧ (10 : Nat) < U64M ∧
      opsOk ⟨4, 0, ⟨10, 1, 100⟩, 100⟩
        [Op.setMaxTokens 20, Op.tryWaitN 2 1 0, Op.returnN 5] = true) ∧
    (run ⟨4, 0, ⟨10, 1, 100⟩, 100⟩
        [Op.setMaxTokens 20, Op.tryWaitN 2 1 0, Op.returnN 5]).available ≤
      (run ⟨4, 0, ⟨10, 1, 100⟩, 100⟩
        [Op.setMaxTokens 20, Op.tryWaitN 2 1 0, Op.returnN 5]).parameters.capacity :=
  ⟨⟨rfl, by decide, by decide, by decide⟩,
    available_bound_invariant (((builder 1 100).with_max_tokens 10).with_initial_available 4) 0
      ⟨4, 0, ⟨10, 1, 100⟩, 100⟩ [Op.setMaxTokens 20, Op.tryWaitN 2 1 0, Op.returnN 5]
      rfl (by decide) (by decide) (by decide)⟩

end Ratelimit
